import Mathlib

set_option maxRecDepth 40000

/-!
Shallow embedding of the winput image drawing module
(`packages/image/src/drawer/actions.ts`) together with the spec-described
`invert` color transform of the processing module.

Modelling conventions:
* A JS `Uint8Array` pixel buffer is a `List (Fin 256)` of bytes; an
  `ImageData` record keeps `width`, `height` and the buffer, as in
  `packages/image/src/types/image.ts` (the optional `path` field carries no
  pixel semantics and is omitted).
* JS numbers used as coordinates are embedded as `Int` (the claims under
  study only exercise integral coordinates).  Quantities the source computes
  with fractional IEEE arithmetic are embedded exactly: the ellipse decision
  variables (whose fractional part is a multiple of 1/4) are tracked scaled
  by 4 as integers, and polygon scanline intersections are kept as integer
  fractions with positive denominator.  On the integer-derived values these
  algorithms produce, IEEE doubles compute the same exact results.
* Every drawing operation in the source mutates the buffer only through
  `setPixel`, with a single color per call.  Each operation is embedded as a
  pure list of write positions (in source iteration order) folded over the
  buffer with `setPixel`; the fold is `applyWrites`.
-/

/-- `RGB{r,g,b}` color, each channel a byte (spec §3: each 0–255). -/
structure RGB where
  r : Fin 256
  g : Fin 256
  b : Fin 256
deriving DecidableEq, Repr

/-- `ImageData` from `types/image.ts`: width, height and BGRA byte buffer. -/
structure ImageData where
  width : Nat
  height : Nat
  buffer : List (Fin 256)
deriving DecidableEq, Repr

/-- `setPixel` from `drawer/actions.ts` (lines 8–20): bounds-checked write of
the three color bytes (blue, green, red) at `(py*width+px)*4` and alpha 255,
a silent no-op when `(px, py)` is out of bounds. -/
def setPixel (img : ImageData) (px py : Int) (color : RGB) : ImageData :=
  if px < 0 ∨ px ≥ (img.width : Int) ∨ py < 0 ∨ py ≥ (img.height : Int) then img
  else
    let idx := (py.toNat * img.width + px.toNat) * 4
    { img with
      buffer :=
        ((((img.buffer.set idx color.b).set (idx + 1) color.g).set
            (idx + 2) color.r).set (idx + 3) 255) }

/-- Fold a list of write positions over the buffer with `setPixel`, using one
color throughout — the shape of every drawing operation in the source. -/
def applyWrites (img : ImageData) (color : RGB) (ps : List (Int × Int)) : ImageData :=
  ps.foldl (fun acc p => setPixel acc p.1 p.2 color) img

theorem setPixel_width (img : ImageData) (px py : Int) (c : RGB) :
    (setPixel img px py c).width = img.width := by
  unfold setPixel; split <;> rfl

theorem setPixel_height (img : ImageData) (px py : Int) (c : RGB) :
    (setPixel img px py c).height = img.height := by
  unfold setPixel; split <;> rfl

theorem setPixel_length (img : ImageData) (px py : Int) (c : RGB) :
    (setPixel img px py c).buffer.length = img.buffer.length := by
  unfold setPixel; split
  · rfl
  · simp

theorem applyWrites_width (img : ImageData) (c : RGB) (ps : List (Int × Int)) :
    (applyWrites img c ps).width = img.width := by
  induction ps generalizing img with
  | nil => rfl
  | cons p ps ih =>
      show (applyWrites (setPixel img p.1 p.2 c) c ps).width = img.width
      rw [ih, setPixel_width]

theorem applyWrites_height (img : ImageData) (c : RGB) (ps : List (Int × Int)) :
    (applyWrites img c ps).height = img.height := by
  induction ps generalizing img with
  | nil => rfl
  | cons p ps ih =>
      show (applyWrites (setPixel img p.1 p.2 c) c ps).height = img.height
      rw [ih, setPixel_height]

theorem applyWrites_length (img : ImageData) (c : RGB) (ps : List (Int × Int)) :
    (applyWrites img c ps).buffer.length = img.buffer.length := by
  induction ps generalizing img with
  | nil => rfl
  | cons p ps ih =>
      show (applyWrites (setPixel img p.1 p.2 c) c ps).buffer.length = img.buffer.length
      rw [ih, setPixel_length]

/-- A byte changed by `setPixel` lies at one of the four byte slots of an
in-bounds target pixel. -/
theorem setPixel_changed (img : ImageData) (px py : Int) (c : RGB) (j : Nat)
    (h : (setPixel img px py c).buffer[j]? ≠ img.buffer[j]?) :
    0 ≤ px ∧ px < (img.width : Int) ∧ 0 ≤ py ∧ py < (img.height : Int) ∧
      ∃ k < 4, j = (py.toNat * img.width + px.toNat) * 4 + k := by
  unfold setPixel at h
  split at h
  · exact absurd rfl h
  · rename_i hin
    push_neg at hin
    obtain ⟨h1, h2, h3, h4⟩ := hin
    refine ⟨h1, h2, h3, h4, ?_⟩
    set idx := (py.toNat * img.width + px.toNat) * 4 with hidx
    by_contra hk
    push_neg at hk
    have hne : ∀ k, k < 4 → idx + k ≠ j := by
      intro k hk4 he
      exact hk k hk4 (by omega)
    simp only [List.getElem?_set_ne (hne 3 (by omega)),
      List.getElem?_set_ne (hne 2 (by omega)),
      List.getElem?_set_ne (hne 1 (by omega)),
      List.getElem?_set_ne (by simpa using hne 0 (by omega))] at h
    exact h rfl

/-- A byte changed by `applyWrites` lies at a byte slot of some in-bounds
position in the write list. -/
theorem applyWrites_changed (img : ImageData) (c : RGB) (ps : List (Int × Int)) (j : Nat)
    (h : (applyWrites img c ps).buffer[j]? ≠ img.buffer[j]?) :
    ∃ p ∈ ps, 0 ≤ p.1 ∧ p.1 < (img.width : Int) ∧ 0 ≤ p.2 ∧ p.2 < (img.height : Int) ∧
      ∃ k < 4, j = (p.2.toNat * img.width + p.1.toNat) * 4 + k := by
  induction ps generalizing img with
  | nil => exact absurd rfl h
  | cons p ps ih =>
      have hstep : applyWrites img c (p :: ps) = applyWrites (setPixel img p.1 p.2 c) c ps := rfl
      by_cases hmid : (applyWrites (setPixel img p.1 p.2 c) c ps).buffer[j]? =
          (setPixel img p.1 p.2 c).buffer[j]?
      · have hone : (setPixel img p.1 p.2 c).buffer[j]? ≠ img.buffer[j]? := by
          rw [hstep, hmid] at h; exact h
        obtain ⟨h1, h2, h3, h4, k, hk, hj⟩ := setPixel_changed img p.1 p.2 c j hone
        exact ⟨p, List.mem_cons_self .., h1, h2, h3, h4, k, hk, hj⟩
      · obtain ⟨q, hq, h1, h2, h3, h4, k, hk, hj⟩ := ih (setPixel img p.1 p.2 c) hmid
        rw [setPixel_width img p.1 p.2 c] at h2 hj
        rw [setPixel_height img p.1 p.2 c] at h4
        exact ⟨q, List.mem_cons_of_mem _ hq, h1, h2, h3, h4, k, hk, hj⟩

/-- C1: `setPixel` silently ignores out-of-bounds coordinates; for in-bounds
coordinates it writes blue, green, red at `(y*width+x)*4`, alpha 255 at the
fourth slot, and leaves every other byte of the buffer unchanged.  (In the
embedding the source's absence of exceptions is reflected by `setPixel` being
a total function.) -/
theorem setPixel_spec (img : ImageData) (px py : Int) (c : RGB) :
    ((px < 0 ∨ px ≥ (img.width : Int) ∨ py < 0 ∨ py ≥ (img.height : Int)) →
      setPixel img px py c = img) ∧
    (0 ≤ px → px < (img.width : Int) → 0 ≤ py → py < (img.height : Int) →
      img.buffer.length = img.width * img.height * 4 →
      (setPixel img px py c).buffer[(py.toNat * img.width + px.toNat) * 4]? = some c.b ∧
      (setPixel img px py c).buffer[(py.toNat * img.width + px.toNat) * 4 + 1]? = some c.g ∧
      (setPixel img px py c).buffer[(py.toNat * img.width + px.toNat) * 4 + 2]? = some c.r ∧
      (setPixel img px py c).buffer[(py.toNat * img.width + px.toNat) * 4 + 3]? = some 255 ∧
      ∀ j : Nat,
        (j < (py.toNat * img.width + px.toNat) * 4 ∨
          (py.toNat * img.width + px.toNat) * 4 + 4 ≤ j) →
        (setPixel img px py c).buffer[j]? = img.buffer[j]?) := by
  constructor
  · intro h
    unfold setPixel
    rw [if_pos h]
  · intro h1 h2 h3 h4 hlen
    have hcond : ¬(px < 0 ∨ px ≥ (img.width : Int) ∨ py < 0 ∨ py ≥ (img.height : Int)) := by
      push_neg
      exact ⟨h1, h2, h3, h4⟩
    have hx : px.toNat < img.width := by omega
    have hy : py.toNat < img.height := by omega
    set n := (py.toNat * img.width + px.toNat) * 4 with hn
    have hmul : (py.toNat + 1) * img.width ≤ img.height * img.width :=
      Nat.mul_le_mul_right _ (by omega)
    have key : n + 3 < img.buffer.length := by
      rw [hlen, hn]
      nlinarith [hmul, hx, hy]
    have hset : (setPixel img px py c).buffer =
        ((((img.buffer.set n c.b).set (n + 1) c.g).set (n + 2) c.r).set (n + 3) 255) := by
      unfold setPixel
      rw [if_neg hcond]
    rw [hset]
    refine ⟨?_, ?_, ?_, ?_, ?_⟩
    · rw [List.getElem?_set_ne (by omega), List.getElem?_set_ne (by omega),
        List.getElem?_set_ne (by omega), List.getElem?_set_self (by omega)]
    · rw [List.getElem?_set_ne (by omega), List.getElem?_set_ne (by omega),
        List.getElem?_set_self (by simp only [List.length_set]; omega)]
    · rw [List.getElem?_set_ne (by omega),
        List.getElem?_set_self (by simp only [List.length_set]; omega)]
    · rw [List.getElem?_set_self (by simp only [List.length_set]; omega)]
    · intro j hj
      rw [List.getElem?_set_ne (by omega), List.getElem?_set_ne (by omega),
        List.getElem?_set_ne (by omega), List.getElem?_set_ne (by omega)]

/-- Concrete 2×1 image used to witness `setPixel_spec`. -/
def imgW : ImageData := ⟨2, 1, List.replicate 8 0⟩

/-- Concrete color used in witnesses (r=10, g=20, b=30). -/
def colW : RGB := ⟨10, 20, 30⟩

theorem setPixel_spec_witness :
    setPixel imgW (-1) 0 colW = imgW ∧
    (setPixel imgW 1 0 colW).buffer[4]? = some (30 : Fin 256) ∧
    (setPixel imgW 1 0 colW).buffer[7]? = some (255 : Fin 256) ∧
    (setPixel imgW 1 0 colW).buffer[0]? = imgW.buffer[0]? := by
  have hout := (setPixel_spec imgW (-1) 0 colW).1 (Or.inl (by decide))
  have hin := (setPixel_spec imgW 1 0 colW).2 (by decide) (by decide) (by decide) (by decide)
    (by decide)
  exact ⟨hout, by simpa using hin.1, by simpa using hin.2.2.2.1,
    by simpa using hin.2.2.2.2 0 (by decide)⟩

/-- `drawRectangle` from `drawer/actions.ts` (lines 22–45) as a write-position
list: two horizontal edges per thickness step, then two vertical edges. -/
def drawRectanglePositions (x y w h thickness : Int) : List (Int × Int) :=
  ((List.range thickness.toNat).flatMap fun t =>
    (List.range w.toNat).flatMap fun i =>
      [(x + (i : Int), y + (t : Int)), (x + (i : Int), y + h - 1 - (t : Int))]) ++
  ((List.range thickness.toNat).flatMap fun t =>
    (List.range h.toNat).flatMap fun i =>
      [(x + (t : Int), y + (i : Int)), (x + w - 1 - (t : Int), y + (i : Int))])

/-- `drawRectangle`: outline of a `w×h` box with top-left corner `(x, y)`. -/
def drawRectangle (img : ImageData) (x y w h : Int) (color : RGB) (thickness : Int) :
    ImageData :=
  applyWrites img color (drawRectanglePositions x y w h thickness)

/-- Blank 10×10 all-black buffer (every byte 0). -/
def black10 : ImageData := ⟨10, 10, List.replicate 400 0⟩

/-- Border test for the 4×4 box anchored at the origin. -/
def isBorder4 (x y : Nat) : Bool :=
  x < 4 && y < 4 && (x == 0 || x == 3 || y == 0 || y == 3)

/-- Expected buffer for the C2 scenario: the 12 border pixels of the 4×4 box
carry the color bytes (b, g, r) with alpha 255, everything else stays 0. -/
def expectedC2 : List (Fin 256) :=
  (List.range 100).flatMap fun i =>
    if isBorder4 (i % 10) (i / 10) then [30, 20, 10, 255] else [0, 0, 0, 0]

/-- C2: `drawRectangle` at (0,0,4,4) with thickness 1 on a blank 10×10 black
buffer sets exactly the 12 border pixels of the 4×4 box to the color (alpha
255) and leaves the interior and exterior untouched. -/
theorem drawRectangle_scenario :
    drawRectangle black10 0 0 4 4 colW 1 = ⟨10, 10, expectedC2⟩ := by decide

/-- Channel map of the spec's invert on a byte stream: color channels become
`255 - v`, every fourth byte (alpha) is preserved. -/
def invertBuf : Nat → List (Fin 256) → List (Fin 256)
  | _, [] => []
  | i, v :: rest => (if i % 4 == 3 then v else 255 - v) :: invertBuf (i + 1) rest

/-- Modelled from the spec: the `invert` processing action is invoked through
`processing/class.ts` (line 205) but its implementation module is not under
`src/`; spec §4.4 defines it as `255 - channel` per color channel, with §4.1
stating filters preserve existing alpha. -/
def invert (img : ImageData) : ImageData :=
  { img with buffer := invertBuf 0 img.buffer }

theorem invertBuf_invertBuf (l : List (Fin 256)) :
    ∀ i, invertBuf i (invertBuf i l) = l := by
  induction l with
  | nil => intro i; rfl
  | cons v rest ih =>
      intro i
      have hval : ∀ w : Fin 256, (255 : Fin 256) - (255 - w) = w := by decide
      cases hb : (i % 4 == 3) with
      | true => simp [invertBuf, hb, ih (i + 1)]
      | false => simp [invertBuf, hb, ih (i + 1), hval]

/-- C3: inverting twice restores every pixel exactly. -/
theorem invert_invert (img : ImageData) : invert (invert img) = img := by
  cases img with
  | mk w h b =>
      show ImageData.mk w h (invertBuf 0 (invertBuf 0 b)) = ImageData.mk w h b
      rw [invertBuf_invertBuf b 0]

/-- The Bresenham stepping loop of `drawLine` (`drawer/actions.ts` lines
117–134), with explicit fuel: returns the list of visited points, or `none`
when the fuel runs out before the loop's only exit — exact equality with
`(x2, y2)` — is reached.  `e2 = 2*err` is tested twice against `-dy` and `dx`
as in the source, and the error term is updated sequentially. -/
def lineLoop (x2 y2 dx dy sx sy : Int) : Nat → Int → Int → Int → Option (List (Int × Int))
  | 0, _, _, _ => none
  | fuel + 1, x, y, err =>
    if x = x2 ∧ y = y2 then some [(x, y)]
    else
      (lineLoop x2 y2 dx dy sx sy fuel
        (if 2 * err > -dy then x + sx else x)
        (if 2 * err < dx then y + sy else y)
        (if 2 * err < dx then (if 2 * err > -dy then err - dy else err) + dx
         else (if 2 * err > -dy then err - dy else err))).map
        fun ps => (x, y) :: ps

theorem getLast?_cons_of_some {α : Type} (a : α) (l : List α) (b : α)
    (h : l.getLast? = some b) : (a :: l).getLast? = some b := by
  cases l with
  | nil => simp at h
  | cons c cs => rw [List.getLast?_cons_cons]; exact h

/-- Invariant-carrying totality of the Bresenham loop: from the state reached
after `a` x-steps and `b` y-steps (error term in closed form), fuel exceeding
the remaining steps suffices, and the last visited point is the endpoint. -/
theorem lineLoop_reaches (x2 y2 dx dy sx sy x0 y0 : Int)
    (hsx : sx = 1 ∨ sx = -1) (hsy : sy = 1 ∨ sy = -1)
    (hx2 : x2 = x0 + sx * dx) (hy2 : y2 = y0 + sy * dy)
    (hdx : 0 ≤ dx) (hdy : 0 ≤ dy) :
    ∀ (fuel : Nat) (a b : Int), 0 ≤ a → a ≤ dx → 0 ≤ b → b ≤ dy →
      (dx - a) + (dy - b) < (fuel : Int) →
      ∃ ps, lineLoop x2 y2 dx dy sx sy fuel (x0 + sx * a) (y0 + sy * b)
          (dx - dy - a * dy + b * dx) = some ps ∧ ps.getLast? = some (x2, y2) := by
  intro fuel
  induction fuel with
  | zero =>
      intro a b ha0 hadx hb0 hbdy hfuel
      exact absurd hfuel (by push_cast; omega)
  | succ fuel ih =>
      intro a b ha0 hadx hb0 hbdy hfuel
      have hxiff : (x0 + sx * a = x2) ↔ a = dx := by
        rcases hsx with h | h <;> subst h <;> omega
      have hyiff : (y0 + sy * b = y2) ↔ b = dy := by
        rcases hsy with h | h <;> subst h <;> omega
      by_cases hdone : a = dx ∧ b = dy
      · refine ⟨[(x2, y2)], ?_, by simp⟩
        have hx : x0 + sx * a = x2 := hxiff.mpr hdone.1
        have hy : y0 + sy * b = y2 := hyiff.mpr hdone.2
        simp [lineLoop, hx, hy]
      · have hcond : ¬(x0 + sx * a = x2 ∧ y0 + sy * b = y2) := by
          intro hc
          exact hdone ⟨hxiff.mp hc.1, hyiff.mp hc.2⟩
        set err := dx - dy - a * dy + b * dx with herr
        by_cases hc1 : 2 * err > -dy
        · by_cases hc2 : 2 * err < dx
          · -- both branches fire: a+1, b+1
            have ha1 : a < dx := by
              by_contra hlt
              have ha : a = dx := by omega
              have hb : b < dy := by
                rcases Int.lt_or_le b dy with h | h
                · exact h
                · exact absurd ⟨ha, by omega⟩ hdone
              have : 2 * err ≤ -dy := by
                rw [herr, ha]
                nlinarith [hb, hdy, hdx, hb0]
              omega
            have hb1 : b < dy := by
              by_contra hlt
              have hb : b = dy := by omega
              have : dx ≤ 2 * err := by
                rw [herr, hb]
                nlinarith [ha1, hdx, hdy, ha0]
              omega
            obtain ⟨ps, hps, hlast⟩ := ih (a + 1) (b + 1) (by omega) (by omega) (by omega)
              (by omega) (by push_cast at hfuel ⊢; omega)
            refine ⟨(x0 + sx * a, y0 + sy * b) :: ps, ?_,
              getLast?_cons_of_some _ _ _ hlast⟩
            have hxs : x0 + sx * a + sx = x0 + sx * (a + 1) := by ring
            have hys : y0 + sy * b + sy = y0 + sy * (b + 1) := by ring
            have hes : err - dy + dx = dx - dy - (a + 1) * dy + (b + 1) * dx := by
              rw [herr]; ring
            rw [lineLoop]
            simp only [if_neg hcond, if_pos hc1, if_pos hc2]
            rw [hxs, hys, hes, hps]
            rfl
          · -- only the x branch fires: a+1, b unchanged
            have ha1 : a < dx := by
              by_contra hlt
              have ha : a = dx := by omega
              have hb : b < dy := by
                rcases Int.lt_or_le b dy with h | h
                · exact h
                · exact absurd ⟨ha, by omega⟩ hdone
              have : 2 * err ≤ -dy := by
                rw [herr, ha]
                nlinarith [hb, hdy, hdx, hb0]
              omega
            obtain ⟨ps, hps, hlast⟩ := ih (a + 1) b (by omega) (by omega) hb0 hbdy
              (by push_cast at hfuel ⊢; omega)
            refine ⟨(x0 + sx * a, y0 + sy * b) :: ps, ?_,
              getLast?_cons_of_some _ _ _ hlast⟩
            have hxs : x0 + sx * a + sx = x0 + sx * (a + 1) := by ring
            have hes : err - dy = dx - dy - (a + 1) * dy + b * dx := by rw [herr]; ring
            rw [lineLoop]
            simp only [if_neg hcond, if_pos hc1, if_neg hc2]
            rw [hxs, hes, hps]
            rfl
        · by_cases hc2 : 2 * err < dx
          · -- only the y branch fires: b+1, a unchanged
            have hb1 : b < dy := by
              by_contra hlt
              have hb : b = dy := by omega
              have ha : a < dx := by
                rcases Int.lt_or_le a dx with h | h
                · exact h
                · exact absurd ⟨by omega, hb⟩ hdone
              have : dx ≤ 2 * err := by
                rw [herr, hb]
                nlinarith [ha, hdx, hdy, ha0]
              omega
            obtain ⟨ps, hps, hlast⟩ := ih a (b + 1) ha0 hadx (by omega) (by omega)
              (by push_cast at hfuel ⊢; omega)
            refine ⟨(x0 + sx * a, y0 + sy * b) :: ps, ?_,
              getLast?_cons_of_some _ _ _ hlast⟩
            have hys : y0 + sy * b + sy = y0 + sy * (b + 1) := by ring
            have hes : err + dx = dx - dy - a * dy + (b + 1) * dx := by rw [herr]; ring
            rw [lineLoop]
            simp only [if_neg hcond, if_neg hc1, if_pos hc2]
            rw [hys, hes, hps]
            rfl
          · -- neither branch can be stuck: dx ≤ 2*err ≤ -dy forces dx = dy = 0
            exfalso
            have h1 : dx ≤ 2 * err := by omega
            have h2 : 2 * err ≤ -dy := by omega
            have hdx0 : dx = 0 := by omega
            have hdy0 : dy = 0 := by omega
            exact hdone ⟨by omega, by omega⟩

/-- Sign step for x as computed by `drawLine` (line 113). -/
def lineSx (a b : Int) : Int := if a < b then 1 else -1

/-- The points visited by `drawLine`, running the loop with fuel
`|x2-x1| + |y2-y1| + 1` (an upper bound on its iterations, certified by
`drawLine_loop_terminates`). -/
def linePoints (px1 py1 px2 py2 : Int) : List (Int × Int) :=
  (lineLoop px2 py2 |px2 - px1| |py2 - py1| (lineSx px1 px2) (lineSx py1 py2)
    ((|px2 - px1| + |py2 - py1|).toNat + 1) px1 py1 (|px2 - px1| - |py2 - py1|)).getD []

/-- C8: with integer endpoints, the Bresenham loop of `drawLine` terminates —
within `dx + dy + 1` iterations it reaches the exact-equality exit, and the
last visited point is the endpoint `(x2, y2)`; `linePoints` is the resulting
visit trace. -/
theorem drawLine_loop_terminates (px1 py1 px2 py2 : Int) :
    ∃ ps, lineLoop px2 py2 |px2 - px1| |py2 - py1| (lineSx px1 px2) (lineSx py1 py2)
        ((|px2 - px1| + |py2 - py1|).toNat + 1) px1 py1 (|px2 - px1| - |py2 - py1|) =
        some ps ∧
      ps.getLast? = some (px2, py2) ∧ linePoints px1 py1 px2 py2 = ps := by
  have hsx : lineSx px1 px2 = 1 ∨ lineSx px1 px2 = -1 := by
    unfold lineSx; split <;> simp
  have hsy : lineSx py1 py2 = 1 ∨ lineSx py1 py2 = -1 := by
    unfold lineSx; split <;> simp
  have habsx := abs_cases (px2 - px1)
  have habsy := abs_cases (py2 - py1)
  have hx2 : px2 = px1 + lineSx px1 px2 * |px2 - px1| := by
    unfold lineSx
    split <;> rcases habsx with ⟨h1, h2⟩ | ⟨h1, h2⟩ <;> omega
  have hy2 : py2 = py1 + lineSx py1 py2 * |py2 - py1| := by
    unfold lineSx
    split <;> rcases habsy with ⟨h1, h2⟩ | ⟨h1, h2⟩ <;> omega
  have hdx : (0 : Int) ≤ |px2 - px1| := abs_nonneg _
  have hdy : (0 : Int) ≤ |py2 - py1| := abs_nonneg _
  obtain ⟨ps, hps, hlast⟩ := lineLoop_reaches px2 py2 |px2 - px1| |py2 - py1|
    (lineSx px1 px2) (lineSx py1 py2) px1 py1 hsx hsy hx2 hy2 hdx hdy
    ((|px2 - px1| + |py2 - py1|).toNat + 1) 0 0 le_rfl hdx le_rfl hdy
    (by push_cast; omega)
  have hstate : lineLoop px2 py2 |px2 - px1| |py2 - py1| (lineSx px1 px2) (lineSx py1 py2)
      ((|px2 - px1| + |py2 - py1|).toNat + 1) px1 py1 (|px2 - px1| - |py2 - py1|) =
      some ps := by
    have e1 : px1 + lineSx px1 px2 * 0 = px1 := by ring
    have e2 : py1 + lineSx py1 py2 * 0 = py1 := by ring
    have e3 : |px2 - px1| - |py2 - py1| - 0 * |py2 - py1| + 0 * |px2 - px1| =
        |px2 - px1| - |py2 - py1| := by ring
    rw [e1, e2] at hps
    rw [show |px2 - px1| - |py2 - py1| = |px2 - px1| - |py2 - py1| - 0 * |py2 - py1| +
      0 * |px2 - px1| by ring]
    exact hps
  exact ⟨ps, hstate, hlast, by unfold linePoints; rw [hstate]; rfl⟩

/-- The thick-point disc of `drawLine.drawThickPoint` (lines 100–109):
offsets `(dx, dy)` with `dx² + dy² ≤ halfThick² + halfThick`, iterated dy-major
as in the source. -/
def discOffsets (thickness : Int) : List (Int × Int) :=
  (List.range (2 * Int.fdiv thickness 2 + 1).toNat).flatMap fun dyi =>
    (List.range (2 * Int.fdiv thickness 2 + 1).toNat).flatMap fun dxi =>
      let dy := -Int.fdiv thickness 2 + (dyi : Int)
      let dx := -Int.fdiv thickness 2 + (dxi : Int)
      if dx * dx + dy * dy ≤ Int.fdiv thickness 2 * Int.fdiv thickness 2 + Int.fdiv thickness 2
      then [(dx, dy)] else []

/-- Write positions of `drawLine` (lines 90–135): a thick disc stamped at
every Bresenham point. -/
def linePositions (px1 py1 px2 py2 thickness : Int) : List (Int × Int) :=
  (linePoints px1 py1 px2 py2).flatMap fun p =>
    (discOffsets thickness).map fun d => (p.1 + d.1, p.2 + d.2)

/-- `drawLine`: Bresenham line with thickness. -/
def drawLine (img : ImageData) (px1 py1 px2 py2 : Int) (color : RGB) (thickness : Int) :
    ImageData :=
  applyWrites img color (linePositions px1 py1 px2 py2 thickness)

/-- The midpoint circle loop of `drawCircle`/`drawArc` (lines 71–86 and
427–453): pairs visited after the initial `(0, r)`.  The fuel bounds the
iteration count; each iteration increments `x` and never increments `y`, so
the `y - x + 1` fuel supplied by `bresenhamCircle` always suffices. -/
def circleLoop : Nat → Int → Int → Int → List (Int × Int)
  | 0, _, _, _ => []
  | fuel + 1, x, y, d =>
    if x < y then
      (x + 1, if d < 0 then y else y - 1) ::
        circleLoop fuel (x + 1) (if d < 0 then y else y - 1)
          (if d < 0 then d + 2 * (x + 1) + 1 else d + 2 * ((x + 1) - (y - 1)) + 1)
    else []

/-- All pairs visited by the midpoint circle walk of radius `r`. -/
def bresenhamCircle (r : Int) : List (Int × Int) :=
  (0, r) :: circleLoop (r.toNat + 1) 0 r (1 - r)

/-- The eight symmetric absolute positions stamped per circle pair
(`drawCirclePoints`, lines 56–65). -/
def sym8 (cx cy x y : Int) : List (Int × Int) :=
  [(cx + x, cy + y), (cx - x, cy + y), (cx + x, cy - y), (cx - x, cy - y),
   (cx + y, cy + x), (cx - y, cy + x), (cx + y, cy - x), (cx - y, cy - x)]

/-- Write positions of `drawCircle` (lines 47–88): one radius per thickness
step, skipping negative radii. -/
def drawCirclePositions (cx cy radius thickness : Int) : List (Int × Int) :=
  (List.range thickness.toNat).flatMap fun t =>
    if radius - Int.fdiv thickness 2 + (t : Int) < 0 then []
    else (bresenhamCircle (radius - Int.fdiv thickness 2 + (t : Int))).flatMap fun p =>
      sym8 cx cy p.1 p.2

/-- `drawCircle`: midpoint circle outline with thickness. -/
def drawCircle (img : ImageData) (cx cy radius : Int) (color : RGB) (thickness : Int) :
    ImageData :=
  applyWrites img color (drawCirclePositions cx cy radius thickness)

/-- Write positions of `fillRectangle` (lines 137–150), row-major. -/
def fillRectanglePositions (x y w h : Int) : List (Int × Int) :=
  (List.range h.toNat).flatMap fun py =>
    (List.range w.toNat).map fun px => (x + (px : Int), y + (py : Int))

/-- `fillRectangle`. -/
def fillRectangle (img : ImageData) (x y w h : Int) (color : RGB) : ImageData :=
  applyWrites img color (fillRectanglePositions x y w h)

/-- Write positions of `fillCircle` (lines 152–167): bounding-box scan with
the inside test `x² + y² ≤ r²`. -/
def fillCirclePositions (cx cy radius : Int) : List (Int × Int) :=
  (List.range (2 * radius + 1).toNat).flatMap fun yi =>
    (List.range (2 * radius + 1).toNat).flatMap fun xi =>
      if (-radius + (xi : Int)) * (-radius + (xi : Int)) +
          (-radius + (yi : Int)) * (-radius + (yi : Int)) ≤ radius * radius
      then [(cx + (-radius + (xi : Int)), cy + (-radius + (yi : Int)))] else []

/-- `fillCircle`. -/
def fillCircle (img : ImageData) (cx cy radius : Int) (color : RGB) : ImageData :=
  applyWrites img color (fillCirclePositions cx cy radius)

/-- Write positions of the filled branch of `drawEllipse` (lines 187–199):
bounding-box scan with the inside test `x²/rx² + y²/ry² ≤ 1`, stated exactly
by clearing the positive denominators `rx²`, `ry²`.  The source computes it
in IEEE doubles, where a zero radius produces `Infinity`/`NaN` and the
comparison is always false; the explicit nonzero guards reproduce that. -/
def fillEllipsePositions (cx cy rx ry : Int) : List (Int × Int) :=
  (List.range (2 * ry + 1).toNat).flatMap fun yi =>
    (List.range (2 * rx + 1).toNat).flatMap fun xi =>
      if rx ≠ 0 ∧ ry ≠ 0 ∧
          (-rx + (xi : Int)) * (-rx + (xi : Int)) * (ry * ry) +
            (-ry + (yi : Int)) * (-ry + (yi : Int)) * (rx * rx) ≤ rx * rx * (ry * ry)
      then [(cx + (-rx + (xi : Int)), cy + (-ry + (yi : Int)))] else []

/-- Region-1 loop of the midpoint ellipse (lines 233–244), with explicit fuel
(each iteration adds `twoRy2` to `px` and never increases `py`, so the fuel
chosen at the call site — `py - px + 1` at entry — always suffices; states
diverging in the source are unreachable from `drawEllipse`).  The IEEE
decision variable `p` always has a fractional part that is a multiple of
1/4, so it is tracked exactly as the integer `p4 = 4p`; the source's
comparisons with 0, and the updates by integer amounts, carry over scaled by
4.  Returns the emitted pairs together with the final `(x, y, px, py)` state
that region 2 continues from. -/
def ellipseRegion1 (rx2 ry2 twoRx2 twoRy2 : Int) :
    Nat → Int → Int → Int → Int → Int → List (Int × Int) × Int × Int × Int × Int
  | 0, x, y, px, py, _ => ([], x, y, px, py)
  | fuel + 1, x, y, px, py, p4 =>
    if px < py then
      if p4 < 0 then
        let r := ellipseRegion1 rx2 ry2 twoRx2 twoRy2 fuel (x + 1) y (px + twoRy2) py
          (p4 + 4 * (ry2 + (px + twoRy2)))
        ((x, y) :: r.1, r.2)
      else
        let r := ellipseRegion1 rx2 ry2 twoRx2 twoRy2 fuel (x + 1) (y - 1) (px + twoRy2)
          (py - twoRx2)
          (p4 + 4 * (ry2 + (px + twoRy2) - (py - twoRx2)))
        ((x, y) :: r.1, r.2)
    else ([], x, y, px, py)

/-- Region-2 loop of the midpoint ellipse (lines 247–258): runs while
`y ≥ 0`, decrementing `y` each iteration (so the `y + 2` fuel supplied by
`ellipseOutlineRel` always suffices); the decision variable is tracked
exactly as `p4 = 4p` as in region 1. -/
def ellipseRegion2 (rx2 ry2 twoRx2 twoRy2 : Int) :
    Nat → Int → Int → Int → Int → Int → List (Int × Int)
  | 0, _, _, _, _, _ => []
  | fuel + 1, x, y, px, py, p4 =>
    if y ≥ 0 then
      (x, y) ::
        (if p4 > 0 then
          ellipseRegion2 rx2 ry2 twoRx2 twoRy2 fuel x (y - 1) px (py - twoRx2)
            (p4 + 4 * (rx2 - (py - twoRx2)))
        else
          ellipseRegion2 rx2 ry2 twoRx2 twoRy2 fuel (x + 1) (y - 1) (px + twoRy2)
            (py - twoRx2) (p4 + 4 * (rx2 - (py - twoRx2) + (px + twoRy2))))
    else []

/-- Relative pairs emitted by one outline pass of the midpoint ellipse for
current radii `(crx, cry)` (lines 223–258). -/
def ellipseOutlineRel (crx cry : Int) : List (Int × Int) :=
  let rx2 := crx * crx
  let ry2 := cry * cry
  let twoRx2 := 2 * rx2
  let twoRy2 := 2 * ry2
  let r1 := ellipseRegion1 rx2 ry2 twoRx2 twoRy2 ((twoRx2 * cry).toNat + 1) 0 cry 0
    (twoRx2 * cry) (4 * ry2 - 4 * rx2 * cry + rx2)
  r1.1 ++ ellipseRegion2 rx2 ry2 twoRx2 twoRy2 ((r1.2.2.1 + 1).toNat + 1) r1.2.1
    r1.2.2.1 r1.2.2.2.1 r1.2.2.2.2
    (ry2 * (2 * r1.2.1 + 1) * (2 * r1.2.1 + 1) +
      4 * rx2 * (r1.2.2.1 - 1) * (r1.2.2.1 - 1) - 4 * rx2 * ry2)

/-- The four symmetric absolute positions stamped per ellipse pair
(`drawEllipsePoints`, lines 201–206). -/
def sym4 (cx cy x y : Int) : List (Int × Int) :=
  [(cx + x, cy + y), (cx - x, cy + y), (cx + x, cy - y), (cx - x, cy - y)]

/-- Write positions of the outline branch of `drawEllipse` (lines 218–259):
one radius pair per thickness step, skipping when either current radius is
negative. -/
def drawEllipseOutlinePositions (cx cy radiusX radiusY thickness : Int) :
    List (Int × Int) :=
  (List.range thickness.toNat).flatMap fun t =>
    if radiusX - Int.fdiv thickness 2 + (t : Int) < 0 ∨
        radiusY - Int.fdiv thickness 2 + (t : Int) < 0 then []
    else
      (ellipseOutlineRel (radiusX - Int.fdiv thickness 2 + (t : Int))
        (radiusY - Int.fdiv thickness 2 + (t : Int))).flatMap fun q =>
        sym4 cx cy q.1 q.2

/-- `drawEllipse` (lines 173–260), covering both the filled and the outline
branch. -/
def drawEllipse (img : ImageData) (cx cy radiusX radiusY : Int) (color : RGB)
    (thickness : Int) (filled : Bool) : ImageData :=
  if filled then applyWrites img color (fillEllipsePositions cx cy radiusX radiusY)
  else applyWrites img color (drawEllipseOutlinePositions cx cy radiusX radiusY thickness)

/-- Edge list of a polygon: consecutive vertex pairs, wrapping the last
vertex back to the first (`(i + 1) % points.length`, lines 292–294 and
315–317). -/
def edgeList (pts : List (Int × Int)) : List ((Int × Int) × (Int × Int)) :=
  (List.range pts.length).map fun i =>
    (pts.getD i (0, 0), pts.getD ((i + 1) % pts.length) (0, 0))

/-- Minimum vertex y (lines 282–287). -/
def polyMinY (pts : List (Int × Int)) : Int :=
  pts.foldl (fun m p => if p.2 < m then p.2 else m) (pts.headD (0, 0)).2

/-- Maximum vertex y (lines 282–287). -/
def polyMaxY (pts : List (Int × Int)) : Int :=
  pts.foldl (fun m p => if p.2 > m then p.2 else m) (pts.headD (0, 0)).2

/-- Exact comparison of two integer fractions with positive denominators. -/
def fracLe (a b : Int × Int) : Prop := a.1 * b.2 ≤ b.1 * a.2

instance fracLe.instDecidable : DecidableRel fracLe := fun a b =>
  inferInstanceAs (Decidable (a.1 * b.2 ≤ b.1 * a.2))

/-- Floor of an integer fraction with positive denominator. -/
def fracFloor (a : Int × Int) : Int := Int.fdiv a.1 a.2

/-- Ceiling of an integer fraction with positive denominator. -/
def fracCeil (a : Int × Int) : Int := -Int.fdiv (-a.1) a.2

/-- x-intersections of scanline `y` with the polygon's edges (lines 290–300):
an edge contributes when it straddles the row under the half-open test, at
abscissa `p1.x + (y - p1.y)·(p2.x - p1.x)/(p2.y - p1.y)`, kept as the exact
fraction `(p1.x·d + (y - p1.y)·(p2.x - p1.x), d)` with `d = p2.y - p1.y`,
normalized to a positive denominator (the straddle test rules out `d = 0`). -/
def rowIntersections (pts : List (Int × Int)) (y : Int) : List (Int × Int) :=
  (edgeList pts).flatMap fun e =>
    if (e.1.2 ≤ y ∧ e.2.2 > y) ∨ (e.2.2 ≤ y ∧ e.1.2 > y) then
      if e.2.2 - e.1.2 < 0 then
        [(-(e.1.1 * (e.2.2 - e.1.2) + (y - e.1.2) * (e.2.1 - e.1.1)),
          -(e.2.2 - e.1.2))]
      else
        [(e.1.1 * (e.2.2 - e.1.2) + (y - e.1.2) * (e.2.1 - e.1.1), e.2.2 - e.1.2)]
    else []

/-- The intersections sorted ascending (line 302,
`intersections.sort((a, b) => a - b)`): a stable ascending sort is determined
by the fraction values, embedded as insertion sort under `fracLe`. -/
def sortedIntersections (pts : List (Int × Int)) (y : Int) : List (Int × Int) :=
  (rowIntersections pts y).insertionSort fracLe

/-- Consecutive pairing (first–second, third–fourth, …) of the sorted
intersections; an unpaired trailing element is dropped (`i + 1 <
intersections.length`, line 305). -/
def consecutivePairs : List (Int × Int) → List ((Int × Int) × (Int × Int))
  | a :: b :: rest => (a, b) :: consecutivePairs rest
  | _ => []

/-- Pixels of row `y` filled by the scanline pass: for each intersection pair
`(a, b)`, the x-run from `⌊a⌋` to `⌈b⌉` (lines 304–312). -/
def rowSpanPositions (pts : List (Int × Int)) (y : Int) : List (Int × Int) :=
  (consecutivePairs (sortedIntersections pts y)).flatMap fun ab =>
    (List.range (fracCeil ab.2 - fracFloor ab.1 + 1).toNat).map fun k =>
      (fracFloor ab.1 + Int.ofNat k, y)

/-- Write positions of the filled branch of `drawPolygon` (lines 279–313):
scanline rows over the polygon's vertical extent (with integer vertices the
source's `Math.floor(minY)`/`Math.ceil(maxY)` are the extremes themselves). -/
def fillPolygonPositions (pts : List (Int × Int)) : List (Int × Int) :=
  (List.range (polyMaxY pts - polyMinY pts + 1).toNat).flatMap fun i =>
    rowSpanPositions pts (polyMinY pts + (i : Int))

/-- Write positions of the outline branch of `drawPolygon` (lines 314–320):
one `drawLine` per wrapped edge. -/
def outlinePolygonPositions (pts : List (Int × Int)) (thickness : Int) :
    List (Int × Int) :=
  (edgeList pts).flatMap fun e => linePositions e.1.1 e.1.2 e.2.1 e.2.2 thickness

/-- `drawPolygon` (lines 266–321): early return for fewer than 2 vertices
(and, when filled, fewer than 3); scanline fill or edge outline. -/
def drawPolygon (img : ImageData) (pts : List (Int × Int)) (color : RGB)
    (thickness : Int) (filled : Bool) : ImageData :=
  if pts.length < 2 then img
  else if filled then
    if pts.length < 3 then img
    else applyWrites img color (fillPolygonPositions pts)
  else applyWrites img color (outlinePolygonPositions pts thickness)

/-- Write positions of `drawCross` (lines 359–385): a horizontal and a
vertical line through the center. -/
def drawCrossPositions (cx cy size thickness : Int) : List (Int × Int) :=
  linePositions (cx - Int.fdiv size 2) cy (cx + Int.fdiv size 2) cy thickness ++
    linePositions cx (cy - Int.fdiv size 2) cx (cy + Int.fdiv size 2) thickness

/-- `drawCross`. -/
def drawCross (img : ImageData) (cx cy size : Int) (color : RGB) (thickness : Int) :
    ImageData :=
  applyWrites img color (drawCrossPositions cx cy size thickness)

/-- C6: with at least 3 vertices and `filled = true`, `drawPolygon` writes
only pixels lying on the horizontal spans between consecutive pairs
(first–second, third–fourth, …) of the sorted x-intersections of each
scanline row in the polygon's vertical extent (spans taken from the floor of
the left intersection to the ceiling of the right one, as in the source). -/
theorem drawPolygon_filled_scanline (img : ImageData) (pts : List (Int × Int))
    (color : RGB) (th : Int) (h3 : 3 ≤ pts.length) (j : Nat)
    (hch : (drawPolygon img pts color th true).buffer[j]? ≠ img.buffer[j]?) :
    ∃ py : Int, polyMinY pts ≤ py ∧ py ≤ polyMaxY pts ∧
      ∃ ab ∈ consecutivePairs (sortedIntersections pts py),
        ∃ px : Int, fracFloor ab.1 ≤ px ∧ px ≤ fracCeil ab.2 ∧
          0 ≤ px ∧ px < (img.width : Int) ∧ 0 ≤ py ∧ py < (img.height : Int) ∧
          ∃ k < 4, j = (py.toNat * img.width + px.toNat) * 4 + k := by
  have hdp : drawPolygon img pts color th true =
      applyWrites img color (fillPolygonPositions pts) := by
    unfold drawPolygon
    rw [if_neg (show ¬pts.length < 2 by omega), if_pos (show (true : Bool) = true from rfl),
      if_neg (show ¬pts.length < 3 by omega)]
  rw [hdp] at hch
  obtain ⟨p, hp, hx0, hx1, hy0, hy1, k, hk, hj⟩ := applyWrites_changed img color _ j hch
  unfold fillPolygonPositions at hp
  rw [List.mem_flatMap] at hp
  obtain ⟨i, hi, hpi⟩ := hp
  rw [List.mem_range] at hi
  unfold rowSpanPositions at hpi
  rw [List.mem_flatMap] at hpi
  obtain ⟨ab, hab, hpp⟩ := hpi
  rw [List.mem_map] at hpp
  obtain ⟨kk, hkk, hpe⟩ := hpp
  rw [List.mem_range] at hkk
  refine ⟨polyMinY pts + (i : Int), by omega, by omega, ab, hab,
    fracFloor ab.1 + (kk : Int), by omega, by omega, ?_, ?_, ?_, ?_, k, hk, ?_⟩
  · rw [← hpe] at hx0; exact hx0
  · rw [← hpe] at hx1; exact hx1
  · rw [← hpe] at hy0; exact hy0
  · rw [← hpe] at hy1; exact hy1
  · rw [← hpe] at hj; exact hj

/-- Blank 8×8 all-black buffer for the polygon witness. -/
def img8 : ImageData := ⟨8, 8, List.replicate 256 0⟩

/-- Witness triangle for C6. -/
def triC6 : List (Int × Int) := [(1, 1), (5, 1), (3, 4)]

theorem drawPolygon_filled_scanline_witness :
    (drawPolygon img8 triC6 colW 1 true).buffer[39]? ≠ img8.buffer[39]? ∧
    (∃ py : Int, polyMinY triC6 ≤ py ∧ py ≤ polyMaxY triC6 ∧
      ∃ ab ∈ consecutivePairs (sortedIntersections triC6 py),
        ∃ px : Int, fracFloor ab.1 ≤ px ∧ px ≤ fracCeil ab.2 ∧
          0 ≤ px ∧ px < (img8.width : Int) ∧ 0 ≤ py ∧ py < (img8.height : Int) ∧
          ∃ k < 4, 39 = (py.toNat * img8.width + px.toNat) * 4 + k) := by
  have h : (drawPolygon img8 triC6 colW 1 true).buffer[39]? ≠ img8.buffer[39]? := by decide
  exact ⟨h, drawPolygon_filled_scanline img8 triC6 colW 1 (by decide) 39 h⟩

/-- C10: `drawPolygon` is a silent no-op for degenerate vertex lists: fewer
than 2 vertices, or `filled = true` with fewer than 3 vertices. -/
theorem drawPolygon_degenerate (img : ImageData) (pts : List (Int × Int)) (color : RGB)
    (th : Int) (filled : Bool)
    (h : pts.length < 2 ∨ (filled = true ∧ pts.length < 3)) :
    drawPolygon img pts color th filled = img := by
  unfold drawPolygon
  rcases h with h | ⟨hf, h⟩
  · rw [if_pos h]
  · by_cases h2 : pts.length < 2
    · rw [if_pos h2]
    · rw [if_neg h2, hf, if_pos (show (true : Bool) = true from rfl), if_pos h]

theorem drawPolygon_degenerate_witness :
    drawPolygon imgW [(0, 0)] colW 2 false = imgW ∧
    drawPolygon imgW [(0, 0), (1, 0)] colW 2 true = imgW :=
  ⟨drawPolygon_degenerate imgW [(0, 0)] colW 2 false (Or.inl (by decide)),
   drawPolygon_degenerate imgW [(0, 0), (1, 0)] colW 2 true (Or.inr ⟨rfl, by decide⟩)⟩

/-- JS `Math.atan2(y, x)` on exact reals: the argument of the complex number
`x + y·i`, valued in `(-π, π]` (with `atan2 0 0 = 0`, as in JS). -/
noncomputable def atan2 (y x : ℝ) : ℝ := Complex.arg ⟨x, y⟩

/-- The source's `normalizeAngle` (lines 398–402) repeatedly adds or
subtracts `2π` until the angle lies in `[0, 2π)`; this is its closed form on
the reals. -/
noncomputable def normalizeAngle (a : ℝ) : ℝ :=
  a - 2 * Real.pi * ⌊a / (2 * Real.pi)⌋

/-- The angle test of `drawArc` (lines 404–424) for a relative circle point
`(x, y)`: `atan2` of the point, normalized, against the normalized
`[start, end]` range, wrapping when `start > end`.  The source computes this
over IEEE doubles; on the exactly representable inputs the claims exercise,
the real-valued test agrees. -/
noncomputable def angleInRange (sa ea : ℝ) (x y : Int) : Bool :=
  if normalizeAngle sa ≤ normalizeAngle ea then
    decide (normalizeAngle sa ≤ normalizeAngle (atan2 (y : ℝ) (x : ℝ)) ∧
      normalizeAngle (atan2 (y : ℝ) (x : ℝ)) ≤ normalizeAngle ea)
  else
    decide (normalizeAngle sa ≤ normalizeAngle (atan2 (y : ℝ) (x : ℝ)) ∨
      normalizeAngle (atan2 (y : ℝ) (x : ℝ)) ≤ normalizeAngle ea)

/-- The eight symmetric relative pairs fed to `drawCirclePoint`
(`drawSymmetricPoints`, lines 431–440). -/
def sym8rel (x y : Int) : List (Int × Int) :=
  [(x, y), (-x, y), (x, -y), (-x, -y), (y, x), (-y, x), (y, -x), (-y, -x)]

/-- Write positions of `drawArc` (lines 387–454), parameterized by the angle
test: for every in-range symmetric circle point, the thickness loop stamps a
horizontally and a vertically offset pixel per step (offset
`t - ⌊thickness/2⌋`). -/
def arcPositionsWith (cx cy radius thickness : Int) (inR : Int → Int → Bool) :
    List (Int × Int) :=
  (bresenhamCircle radius).flatMap fun q =>
    (sym8rel q.1 q.2).flatMap fun p =>
      if inR p.1 p.2 then
        (List.range thickness.toNat).flatMap fun t =>
          [(cx + p.1 + ((t : Int) - Int.fdiv thickness 2), cy + p.2),
            (cx + p.1, cy + p.2 + ((t : Int) - Int.fdiv thickness 2))]
      else []

/-- `drawArc`: the arc of a Bresenham circle restricted by the angle test. -/
noncomputable def drawArc (img : ImageData) (cx cy radius : Int) (sa ea : ℝ)
    (color : RGB) (thickness : Int) : ImageData :=
  applyWrites img color (arcPositionsWith cx cy radius thickness (angleInRange sa ea))

/-- With `start = end = 0` the angle test accepts exactly the points on the
nonnegative x-axis: `atan2` is 0 precisely there, and every other normalized
angle is strictly positive. -/
theorem angleInRange_zero (x y : Int) :
    angleInRange 0 0 x y = decide (y = 0 ∧ 0 ≤ x) := by
  have hpi := Real.pi_pos
  have hna0 : normalizeAngle 0 = 0 := by
    unfold normalizeAngle
    simp
  have hlow : -Real.pi < atan2 (y : ℝ) (x : ℝ) := Complex.neg_pi_lt_arg _
  have hhigh : atan2 (y : ℝ) (x : ℝ) ≤ Real.pi := Complex.arg_le_pi _
  have hzero_iff : atan2 (y : ℝ) (x : ℝ) = 0 ↔ (y = 0 ∧ 0 ≤ x) := by
    unfold atan2
    rw [Complex.arg_eq_zero_iff]
    constructor
    · rintro ⟨h1, h2⟩
      have h2r : (y : ℝ) = 0 := h2
      have h1r : (0 : ℝ) ≤ (x : ℝ) := h1
      exact ⟨by exact_mod_cast h2r, by exact_mod_cast h1r⟩
    · rintro ⟨h1, h2⟩
      have h2r : (0 : ℝ) ≤ (x : ℝ) := by exact_mod_cast h2
      have h1r : (y : ℝ) = 0 := by exact_mod_cast h1
      exact ⟨h2r, h1r⟩
  have hna : normalizeAngle (atan2 (y : ℝ) (x : ℝ)) =
      if 0 ≤ atan2 (y : ℝ) (x : ℝ) then atan2 (y : ℝ) (x : ℝ)
      else atan2 (y : ℝ) (x : ℝ) + 2 * Real.pi := by
    unfold normalizeAngle
    by_cases h0 : 0 ≤ atan2 (y : ℝ) (x : ℝ)
    · rw [if_pos h0]
      have hfl : ⌊atan2 (y : ℝ) (x : ℝ) / (2 * Real.pi)⌋ = 0 := by
        rw [Int.floor_eq_zero_iff, Set.mem_Ico]
        refine ⟨div_nonneg h0 (by positivity), ?_⟩
        rw [div_lt_one (by positivity)]
        linarith
      rw [hfl]
      push_cast
      ring
    · rw [if_neg h0]
      push_neg at h0
      have hfl : ⌊atan2 (y : ℝ) (x : ℝ) / (2 * Real.pi)⌋ = -1 := by
        rw [Int.floor_eq_iff]
        push_cast
        constructor
        · rw [le_div_iff₀ (by positivity)]
          linarith
        · rw [div_lt_iff₀ (by positivity)]
          linarith
      rw [hfl]
      push_cast
      ring
  unfold angleInRange
  rw [hna0, if_pos le_rfl, decide_eq_decide, hna]
  by_cases h0 : 0 ≤ atan2 (y : ℝ) (x : ℝ)
  · rw [if_pos h0]
    constructor
    · rintro ⟨h1, h2⟩
      exact hzero_iff.mp (le_antisymm h2 h1)
    · intro h
      rw [hzero_iff.mpr h]
      exact ⟨le_rfl, le_rfl⟩
  · rw [if_neg h0]
    push_neg at h0
    constructor
    · rintro ⟨h1, h2⟩
      exfalso
      linarith
    · intro h
      exfalso
      have := hzero_iff.mpr h
      linarith

theorem angleInRange_zero_fun :
    angleInRange 0 0 = fun x y => decide (y = 0 ∧ 0 ≤ x) := by
  funext x y
  exact angleInRange_zero x y

/-- Blank 10×10 all-black buffer for the arc instances. -/
def img10 : ImageData := ⟨10, 10, List.replicate 400 0⟩

/-- The arc instance with `start = end = 0` evaluated through the exact angle
test: the predicate accepts exactly the nonnegative x-axis. -/
theorem drawArc_zero_eval :
    drawArc img10 5 5 2 0 0 colW 2 =
      applyWrites img10 colW
        (arcPositionsWith 5 5 2 2 fun x y => decide (y = 0 ∧ 0 ≤ x)) := by
  unfold drawArc
  rw [angleInRange_zero_fun]

/-- C7 counterexample: on a blank 10×10 buffer, `drawArc` at center (5,5),
radius 2, angles `start = end = 0` and the default thickness 2 sets pixel
(6,5) — byte 227 is its alpha slot — yet its relative position (1,0) is not a
point of the Bresenham circle of radius 2: the thickness loop stamps pixels
offset from the circle, so drawArc does not set only circle pixels. -/
theorem drawArc_offcircle_cex :
    (drawArc img10 5 5 2 0 0 colW 2).buffer[227]? = some (255 : Fin 256) ∧
    img10.buffer[227]? = some (0 : Fin 256) ∧
    ((1 : Int), (0 : Int)) ∉ ((bresenhamCircle 2).flatMap fun q => sym8rel q.1 q.2) := by
  rw [drawArc_zero_eval]
  exact ⟨by decide, by decide, by decide⟩

/-- C7 amended: every byte changed by `drawArc` belongs to a pixel that is a
Bresenham circle point of the given radius, accepted by the normalized-angle
range test, and offset horizontally or vertically by `t - ⌊thickness/2⌋` for
some thickness step `t` (for thickness 1 the offset is 0, i.e. exactly the
in-range circle points). -/
theorem drawArc_only_offsets (img : ImageData) (cx cy radius : Int) (sa ea : ℝ)
    (color : RGB) (th : Int) (j : Nat)
    (hch : (drawArc img cx cy radius sa ea color th).buffer[j]? ≠ img.buffer[j]?) :
    ∃ p ∈ ((bresenhamCircle radius).flatMap fun q => sym8rel q.1 q.2),
      angleInRange sa ea p.1 p.2 = true ∧
      ∃ t : Nat, t < th.toNat ∧
        ∃ q : Int × Int,
          (q = (cx + p.1 + ((t : Int) - Int.fdiv th 2), cy + p.2) ∨
            q = (cx + p.1, cy + p.2 + ((t : Int) - Int.fdiv th 2))) ∧
          0 ≤ q.1 ∧ q.1 < (img.width : Int) ∧ 0 ≤ q.2 ∧ q.2 < (img.height : Int) ∧
          ∃ k < 4, j = (q.2.toNat * img.width + q.1.toNat) * 4 + k := by
  unfold drawArc at hch
  obtain ⟨q, hq, hx0, hx1, hy0, hy1, k, hk, hj⟩ := applyWrites_changed img color _ j hch
  unfold arcPositionsWith at hq
  rw [List.mem_flatMap] at hq
  obtain ⟨c0, hc0, hq⟩ := hq
  rw [List.mem_flatMap] at hq
  obtain ⟨p, hp, hq⟩ := hq
  by_cases hr : angleInRange sa ea p.1 p.2 = true
  · rw [if_pos hr] at hq
    rw [List.mem_flatMap] at hq
    obtain ⟨t, ht, hq⟩ := hq
    rw [List.mem_range] at ht
    have hq2 : q = (cx + p.1 + ((t : Int) - Int.fdiv th 2), cy + p.2) ∨
        q = (cx + p.1, cy + p.2 + ((t : Int) - Int.fdiv th 2)) := by
      simpa using hq
    exact ⟨p, List.mem_flatMap.mpr ⟨c0, hc0, hp⟩, hr, t, ht, q, hq2,
      hx0, hx1, hy0, hy1, k, hk, hj⟩
  · rw [if_neg hr] at hq
    cases hq

theorem drawArc_only_offsets_witness :
    (drawArc img10 5 5 2 0 0 colW 2).buffer[227]? ≠ img10.buffer[227]? ∧
    (∃ p ∈ ((bresenhamCircle 2).flatMap fun q => sym8rel q.1 q.2),
      angleInRange 0 0 p.1 p.2 = true ∧
      ∃ t : Nat, t < (2 : Int).toNat ∧
        ∃ q : Int × Int,
          (q = (5 + p.1 + ((t : Int) - Int.fdiv 2 2), 5 + p.2) ∨
            q = (5 + p.1, 5 + p.2 + ((t : Int) - Int.fdiv 2 2))) ∧
          0 ≤ q.1 ∧ q.1 < (img10.width : Int) ∧ 0 ≤ q.2 ∧ q.2 < (img10.height : Int) ∧
          ∃ k < 4, 227 = (q.2.toNat * img10.width + q.1.toNat) * 4 + k) := by
  have hch : (drawArc img10 5 5 2 0 0 colW 2).buffer[227]? ≠ img10.buffer[227]? := by
    rw [drawArc_zero_eval]
    decide
  exact ⟨hch, drawArc_only_offsets img10 5 5 2 0 0 colW 2 227 hch⟩

/-- The fixed 5×7 glyph table `FONT_5X7` (`drawer/actions.ts` lines 462–796):
one bitmap per supported character (A–Z, 0–9, space); `none` for any other
character. -/
def FONT_5X7 (c : Char) : Option (List (List Nat)) :=
  match c with
  | 'A' =>
    some [[0, 1, 1, 1, 0],
      [1, 0, 0, 0, 1],
      [1, 0, 0, 0, 1],
      [1, 1, 1, 1, 1],
      [1, 0, 0, 0, 1],
      [1, 0, 0, 0, 1],
      [1, 0, 0, 0, 1]]
  | 'B' =>
    some [[1, 1, 1, 1, 0],
      [1, 0, 0, 0, 1],
      [1, 0, 0, 0, 1],
      [1, 1, 1, 1, 0],
      [1, 0, 0, 0, 1],
      [1, 0, 0, 0, 1],
      [1, 1, 1, 1, 0]]
  | 'C' =>
    some [[0, 1, 1, 1, 0],
      [1, 0, 0, 0, 1],
      [1, 0, 0, 0, 0],
      [1, 0, 0, 0, 0],
      [1, 0, 0, 0, 0],
      [1, 0, 0, 0, 1],
      [0, 1, 1, 1, 0]]
  | 'D' =>
    some [[1, 1, 1, 1, 0],
      [1, 0, 0, 0, 1],
      [1, 0, 0, 0, 1],
      [1, 0, 0, 0, 1],
      [1, 0, 0, 0, 1],
      [1, 0, 0, 0, 1],
      [1, 1, 1, 1, 0]]
  | 'E' =>
    some [[1, 1, 1, 1, 1],
      [1, 0, 0, 0, 0],
      [1, 0, 0, 0, 0],
      [1, 1, 1, 1, 0],
      [1, 0, 0, 0, 0],
      [1, 0, 0, 0, 0],
      [1, 1, 1, 1, 1]]
  | 'F' =>
    some [[1, 1, 1, 1, 1],
      [1, 0, 0, 0, 0],
      [1, 0, 0, 0, 0],
      [1, 1, 1, 1, 0],
      [1, 0, 0, 0, 0],
      [1, 0, 0, 0, 0],
      [1, 0, 0, 0, 0]]
  | 'G' =>
    some [[0, 1, 1, 1, 0],
      [1, 0, 0, 0, 1],
      [1, 0, 0, 0, 0],
      [1, 0, 1, 1, 1],
      [1, 0, 0, 0, 1],
      [1, 0, 0, 0, 1],
      [0, 1, 1, 1, 0]]
  | 'H' =>
    some [[1, 0, 0, 0, 1],
      [1, 0, 0, 0, 1],
      [1, 0, 0, 0, 1],
      [1, 1, 1, 1, 1],
      [1, 0, 0, 0, 1],
      [1, 0, 0, 0, 1],
      [1, 0, 0, 0, 1]]
  | 'I' =>
    some [[1, 1, 1, 1, 1],
      [0, 0, 1, 0, 0],
      [0, 0, 1, 0, 0],
      [0, 0, 1, 0, 0],
      [0, 0, 1, 0, 0],
      [0, 0, 1, 0, 0],
      [1, 1, 1, 1, 1]]
  | 'J' =>
    some [[0, 0, 1, 1, 1],
      [0, 0, 0, 1, 0],
      [0, 0, 0, 1, 0],
      [0, 0, 0, 1, 0],
      [1, 0, 0, 1, 0],
      [1, 0, 0, 1, 0],
      [0, 1, 1, 0, 0]]
  | 'K' =>
    some [[1, 0, 0, 0, 1],
      [1, 0, 0, 1, 0],
      [1, 0, 1, 0, 0],
      [1, 1, 0, 0, 0],
      [1, 0, 1, 0, 0],
      [1, 0, 0, 1, 0],
      [1, 0, 0, 0, 1]]
  | 'L' =>
    some [[1, 0, 0, 0, 0],
      [1, 0, 0, 0, 0],
      [1, 0, 0, 0, 0],
      [1, 0, 0, 0, 0],
      [1, 0, 0, 0, 0],
      [1, 0, 0, 0, 0],
      [1, 1, 1, 1, 1]]
  | 'M' =>
    some [[1, 0, 0, 0, 1],
      [1, 1, 0, 1, 1],
      [1, 0, 1, 0, 1],
      [1, 0, 0, 0, 1],
      [1, 0, 0, 0, 1],
      [1, 0, 0, 0, 1],
      [1, 0, 0, 0, 1]]
  | 'N' =>
    some [[1, 0, 0, 0, 1],
      [1, 1, 0, 0, 1],
      [1, 0, 1, 0, 1],
      [1, 0, 0, 1, 1],
      [1, 0, 0, 0, 1],
      [1, 0, 0, 0, 1],
      [1, 0, 0, 0, 1]]
  | 'O' =>
    some [[0, 1, 1, 1, 0],
      [1, 0, 0, 0, 1],
      [1, 0, 0, 0, 1],
      [1, 0, 0, 0, 1],
      [1, 0, 0, 0, 1],
      [1, 0, 0, 0, 1],
      [0, 1, 1, 1, 0]]
  | 'P' =>
    some [[1, 1, 1, 1, 0],
      [1, 0, 0, 0, 1],
      [1, 0, 0, 0, 1],
      [1, 1, 1, 1, 0],
      [1, 0, 0, 0, 0],
      [1, 0, 0, 0, 0],
      [1, 0, 0, 0, 0]]
  | 'Q' =>
    some [[0, 1, 1, 1, 0],
      [1, 0, 0, 0, 1],
      [1, 0, 0, 0, 1],
      [1, 0, 0, 0, 1],
      [1, 0, 1, 0, 1],
      [1, 0, 0, 1, 0],
      [0, 1, 1, 0, 1]]
  | 'R' =>
    some [[1, 1, 1, 1, 0],
      [1, 0, 0, 0, 1],
      [1, 0, 0, 0, 1],
      [1, 1, 1, 1, 0],
      [1, 0, 1, 0, 0],
      [1, 0, 0, 1, 0],
      [1, 0, 0, 0, 1]]
  | 'S' =>
    some [[0, 1, 1, 1, 0],
      [1, 0, 0, 0, 1],
      [1, 0, 0, 0, 0],
      [0, 1, 1, 1, 0],
      [0, 0, 0, 0, 1],
      [1, 0, 0, 0, 1],
      [0, 1, 1, 1, 0]]
  | 'T' =>
    some [[1, 1, 1, 1, 1],
      [0, 0, 1, 0, 0],
      [0, 0, 1, 0, 0],
      [0, 0, 1, 0, 0],
      [0, 0, 1, 0, 0],
      [0, 0, 1, 0, 0],
      [0, 0, 1, 0, 0]]
  | 'U' =>
    some [[1, 0, 0, 0, 1],
      [1, 0, 0, 0, 1],
      [1, 0, 0, 0, 1],
      [1, 0, 0, 0, 1],
      [1, 0, 0, 0, 1],
      [1, 0, 0, 0, 1],
      [0, 1, 1, 1, 0]]
  | 'V' =>
    some [[1, 0, 0, 0, 1],
      [1, 0, 0, 0, 1],
      [1, 0, 0, 0, 1],
      [1, 0, 0, 0, 1],
      [1, 0, 0, 0, 1],
      [0, 1, 0, 1, 0],
      [0, 0, 1, 0, 0]]
  | 'W' =>
    some [[1, 0, 0, 0, 1],
      [1, 0, 0, 0, 1],
      [1, 0, 0, 0, 1],
      [1, 0, 0, 0, 1],
      [1, 0, 1, 0, 1],
      [1, 1, 0, 1, 1],
      [1, 0, 0, 0, 1]]
  | 'X' =>
    some [[1, 0, 0, 0, 1],
      [1, 0, 0, 0, 1],
      [0, 1, 0, 1, 0],
      [0, 0, 1, 0, 0],
      [0, 1, 0, 1, 0],
      [1, 0, 0, 0, 1],
      [1, 0, 0, 0, 1]]
  | 'Y' =>
    some [[1, 0, 0, 0, 1],
      [1, 0, 0, 0, 1],
      [0, 1, 0, 1, 0],
      [0, 0, 1, 0, 0],
      [0, 0, 1, 0, 0],
      [0, 0, 1, 0, 0],
      [0, 0, 1, 0, 0]]
  | 'Z' =>
    some [[1, 1, 1, 1, 1],
      [0, 0, 0, 0, 1],
      [0, 0, 0, 1, 0],
      [0, 0, 1, 0, 0],
      [0, 1, 0, 0, 0],
      [1, 0, 0, 0, 0],
      [1, 1, 1, 1, 1]]
  | '0' =>
    some [[0, 1, 1, 1, 0],
      [1, 0, 0, 0, 1],
      [1, 0, 0, 1, 1],
      [1, 0, 1, 0, 1],
      [1, 1, 0, 0, 1],
      [1, 0, 0, 0, 1],
      [0, 1, 1, 1, 0]]
  | '1' =>
    some [[0, 0, 1, 0, 0],
      [0, 1, 1, 0, 0],
      [0, 0, 1, 0, 0],
      [0, 0, 1, 0, 0],
      [0, 0, 1, 0, 0],
      [0, 0, 1, 0, 0],
      [0, 1, 1, 1, 0]]
  | '2' =>
    some [[0, 1, 1, 1, 0],
      [1, 0, 0, 0, 1],
      [0, 0, 0, 0, 1],
      [0, 0, 0, 1, 0],
      [0, 0, 1, 0, 0],
      [0, 1, 0, 0, 0],
      [1, 1, 1, 1, 1]]
  | '3' =>
    some [[0, 1, 1, 1, 0],
      [1, 0, 0, 0, 1],
      [0, 0, 0, 0, 1],
      [0, 0, 1, 1, 0],
      [0, 0, 0, 0, 1],
      [1, 0, 0, 0, 1],
      [0, 1, 1, 1, 0]]
  | '4' =>
    some [[0, 0, 0, 1, 0],
      [0, 0, 1, 1, 0],
      [0, 1, 0, 1, 0],
      [1, 0, 0, 1, 0],
      [1, 1, 1, 1, 1],
      [0, 0, 0, 1, 0],
      [0, 0, 0, 1, 0]]
  | '5' =>
    some [[1, 1, 1, 1, 1],
      [1, 0, 0, 0, 0],
      [1, 1, 1, 1, 0],
      [0, 0, 0, 0, 1],
      [0, 0, 0, 0, 1],
      [1, 0, 0, 0, 1],
      [0, 1, 1, 1, 0]]
  | '6' =>
    some [[0, 0, 1, 1, 0],
      [0, 1, 0, 0, 0],
      [1, 0, 0, 0, 0],
      [1, 1, 1, 1, 0],
      [1, 0, 0, 0, 1],
      [1, 0, 0, 0, 1],
      [0, 1, 1, 1, 0]]
  | '7' =>
    some [[1, 1, 1, 1, 1],
      [0, 0, 0, 0, 1],
      [0, 0, 0, 1, 0],
      [0, 0, 1, 0, 0],
      [0, 1, 0, 0, 0],
      [0, 1, 0, 0, 0],
      [0, 1, 0, 0, 0]]
  | '8' =>
    some [[0, 1, 1, 1, 0],
      [1, 0, 0, 0, 1],
      [1, 0, 0, 0, 1],
      [0, 1, 1, 1, 0],
      [1, 0, 0, 0, 1],
      [1, 0, 0, 0, 1],
      [0, 1, 1, 1, 0]]
  | '9' =>
    some [[0, 1, 1, 1, 0],
      [1, 0, 0, 0, 1],
      [1, 0, 0, 0, 1],
      [0, 1, 1, 1, 1],
      [0, 0, 0, 0, 1],
      [0, 0, 0, 1, 0],
      [0, 1, 1, 0, 0]]
  | ' ' =>
    some [[0, 0, 0, 0, 0],
      [0, 0, 0, 0, 0],
      [0, 0, 0, 0, 0],
      [0, 0, 0, 0, 0],
      [0, 0, 0, 0, 0],
      [0, 0, 0, 0, 0],
      [0, 0, 0, 0, 0]]
  | _ => none

/-- JS `String.prototype.toUpperCase` restricted to the ASCII range the font
distinguishes: lower-case letters map up by 32, everything else is fixed. -/
def jsToUpper (c : Char) : Char :=
  if 97 ≤ c.toNat ∧ c.toNat ≤ 122 then Char.ofNat (c.toNat - 32) else c

/-- Write positions of one glyph stamp (lines 819–834): rows 0–6, columns
0–4, each lit bitmap cell expanded to a `size × size` block. -/
def glyphPositions (cx y size : Int) (bmp : List (List Nat)) : List (Int × Int) :=
  (List.range 7).flatMap fun row =>
    (List.range 5).flatMap fun col =>
      if (bmp.getD row []).getD col 0 ≠ 0 then
        (List.range size.toNat).flatMap fun sy =>
          (List.range size.toNat).map fun sx =>
            (cx + Int.ofNat col * size + Int.ofNat sx,
              y + Int.ofNat row * size + Int.ofNat sy)
      else []

/-- Write positions of `drawText` over an already upper-cased character list:
a glyph stamp for supported characters, nothing for unsupported ones, the
cursor advancing by `(charWidth + spacing) * size = (5 + 1) * size` either
way (lines 807–837). -/
def textPositions (y size : Int) : Int → List Char → List (Int × Int)
  | _, [] => []
  | cx, c :: rest =>
    (match FONT_5X7 c with
      | none => []
      | some bmp => glyphPositions cx y size bmp) ++
      textPositions y size (cx + (5 + 1) * size) rest

/-- `drawText` (lines 798–838): upper-cases the input, then stamps glyph by
glyph. -/
def drawText (img : ImageData) (x y : Int) (text : List Char) (color : RGB)
    (size : Int) : ImageData :=
  applyWrites img color (textPositions y size x (text.map jsToUpper))

theorem char_toNat_ofNat (m : Nat) (h1 : m < 55296) : (Char.ofNat m).toNat = m := by
  have hv : Nat.isValidChar m := Or.inl h1
  rw [Char.ofNat, dif_pos hv]
  rfl

/-- Upper-casing is idempotent character-wise: an upper-cased character is no
longer in the lower-case range. -/
theorem jsToUpper_idem (c : Char) : jsToUpper (jsToUpper c) = jsToUpper c := by
  unfold jsToUpper
  by_cases h : 97 ≤ c.toNat ∧ c.toNat ≤ 122
  · rw [if_pos h]
    have hv : (Char.ofNat (c.toNat - 32)).toNat = c.toNat - 32 :=
      char_toNat_ofNat _ (by omega)
    rw [if_neg (by omega)]
  · rw [if_neg h, if_neg h]

theorem applyWrites_append (img : ImageData) (c : RGB) (ps qs : List (Int × Int)) :
    applyWrites img c (ps ++ qs) = applyWrites (applyWrites img c ps) c qs := by
  unfold applyWrites
  rw [List.foldl_append]

/-- C9: `drawText` is case-insensitive — drawing a string and drawing its
upper-cased form produce the same image, because the input is upper-cased
before glyph lookup. -/
theorem drawText_case_insensitive (img : ImageData) (x y : Int) (s : List Char)
    (color : RGB) (size : Int) :
    drawText img x y s color size = drawText img x y (s.map jsToUpper) color size := by
  unfold drawText
  rw [List.map_map]
  have hid : jsToUpper ∘ jsToUpper = jsToUpper := funext jsToUpper_idem
  rw [hid]

/-- Blank 12×8 all-black buffer for the text instances. -/
def img12 : ImageData := ⟨12, 8, List.replicate 384 0⟩

set_option maxHeartbeats 2000000 in
/-- C5 counterexample: if an unsupported character advanced the cursor by the
glyph width alone (5 columns at size 1), then drawing `"?I"` from x = 0 would
equal drawing `"I"` from x = 5; it does not — the source advances by
`(charWidth + spacing) * size = 6` columns, so the result equals drawing
`"I"` from x = 6. -/
theorem drawText_unsupported_advance_cex :
    drawText img12 0 0 ['?', 'I'] colW 1 ≠ drawText img12 5 0 ['I'] colW 1 ∧
    drawText img12 0 0 ['?', 'I'] colW 1 = drawText img12 6 0 ['I'] colW 1 := by
  constructor
  · intro h
    have h1 : (drawText img12 0 0 ['?', 'I'] colW 1).buffer[23]? = some 0 := by decide
    have h2 : (drawText img12 5 0 ['I'] colW 1).buffer[23]? = some (255 : Fin 256) := by
      decide
    rw [h, h2] at h1
    exact absurd h1 (by decide)
  · decide

/-- C5 amended: `drawText` processes the (upper-cased) input character by
character; a character with no glyph draws nothing, a supported character
stamps its fixed 5×7 bitmap scaled by the integer size factor, and in both
cases the cursor advances by glyph width plus one column of spacing
(6 columns, scaled by the size factor). -/
theorem drawText_char_step (img : ImageData) (x y size : Int) (color : RGB)
    (c : Char) (rest : List Char) :
    (FONT_5X7 (jsToUpper c) = none →
      drawText img x y (c :: rest) color size =
        drawText img (x + (5 + 1) * size) y rest color size) ∧
    (∀ bmp, FONT_5X7 (jsToUpper c) = some bmp →
      drawText img x y (c :: rest) color size =
        drawText (applyWrites img color (glyphPositions x y size bmp))
          (x + (5 + 1) * size) y rest color size) := by
  constructor
  · intro hnone
    show applyWrites img color
        (textPositions y size x (jsToUpper c :: rest.map jsToUpper)) = _
    rw [textPositions, hnone]
    rfl
  · intro bmp hsome
    show applyWrites img color
        (textPositions y size x (jsToUpper c :: rest.map jsToUpper)) = _
    rw [textPositions, hsome, applyWrites_append]
    rfl

/-- The glyph of `I`, for the witness. -/
def bmpI : List (List Nat) :=
  [[1, 1, 1, 1, 1],
    [0, 0, 1, 0, 0],
    [0, 0, 1, 0, 0],
    [0, 0, 1, 0, 0],
    [0, 0, 1, 0, 0],
    [0, 0, 1, 0, 0],
    [1, 1, 1, 1, 1]]

set_option maxHeartbeats 2000000 in
theorem drawText_char_step_witness :
    drawText img12 0 0 ['?', 'I'] colW 1 = drawText img12 6 0 ['I'] colW 1 ∧
    drawText img12 0 0 ['i'] colW 1 =
      drawText (applyWrites img12 colW (glyphPositions 0 0 1 bmpI)) 6 0 [] colW 1 :=
  ⟨by
      have h := (drawText_char_step img12 0 0 1 colW '?' ['I']).1 (by decide)
      simpa using h,
    (drawText_char_step img12 0 0 1 colW 'i' []).2 bmpI (by decide)⟩

/-- Write positions of `drawArrow` (lines 323–357): the shaft line, then two
head lines whose endpoints subtract `arrowSize` along the shaft angle
(`atan2`) rotated by the fixed head angle `π/6`, floored to integers. -/
noncomputable def drawArrowPositions (x1 y1 x2 y2 thickness arrowSize : Int) :
    List (Int × Int) :=
  linePositions x1 y1 x2 y2 thickness ++
    linePositions x2 y2
      ⌊(x2 : ℝ) - (arrowSize : ℝ) *
        Real.cos (atan2 ((y2 - y1 : Int) : ℝ) ((x2 - x1 : Int) : ℝ) - Real.pi / 6)⌋
      ⌊(y2 : ℝ) - (arrowSize : ℝ) *
        Real.sin (atan2 ((y2 - y1 : Int) : ℝ) ((x2 - x1 : Int) : ℝ) - Real.pi / 6)⌋
      thickness ++
    linePositions x2 y2
      ⌊(x2 : ℝ) - (arrowSize : ℝ) *
        Real.cos (atan2 ((y2 - y1 : Int) : ℝ) ((x2 - x1 : Int) : ℝ) + Real.pi / 6)⌋
      ⌊(y2 : ℝ) - (arrowSize : ℝ) *
        Real.sin (atan2 ((y2 - y1 : Int) : ℝ) ((x2 - x1 : Int) : ℝ) + Real.pi / 6)⌋
      thickness

/-- `drawArrow`. -/
noncomputable def drawArrow (img : ImageData) (x1 y1 x2 y2 : Int) (color : RGB)
    (thickness arrowSize : Int) : ImageData :=
  applyWrites img color (drawArrowPositions x1 y1 x2 y2 thickness arrowSize)

/-- C4: every vector-drawing operation preserves the buffer invariant — the
width and height fields and the byte length of the pixel buffer are unchanged
by the call; only pixel contents are written (each operation is a fold of
bounds-checked 4-byte `setPixel` writes over the existing buffer). -/
theorem drawOps_preserve_dims :
    (∀ img x y w h color th, (drawRectangle img x y w h color th).width = img.width ∧
      (drawRectangle img x y w h color th).height = img.height ∧
      (drawRectangle img x y w h color th).buffer.length = img.buffer.length) ∧
    (∀ img cx cy r color th, (drawCircle img cx cy r color th).width = img.width ∧
      (drawCircle img cx cy r color th).height = img.height ∧
      (drawCircle img cx cy r color th).buffer.length = img.buffer.length) ∧
    (∀ img x1 y1 x2 y2 color th, (drawLine img x1 y1 x2 y2 color th).width = img.width ∧
      (drawLine img x1 y1 x2 y2 color th).height = img.height ∧
      (drawLine img x1 y1 x2 y2 color th).buffer.length = img.buffer.length) ∧
    (∀ img x y w h color, (fillRectangle img x y w h color).width = img.width ∧
      (fillRectangle img x y w h color).height = img.height ∧
      (fillRectangle img x y w h color).buffer.length = img.buffer.length) ∧
    (∀ img cx cy r color, (fillCircle img cx cy r color).width = img.width ∧
      (fillCircle img cx cy r color).height = img.height ∧
      (fillCircle img cx cy r color).buffer.length = img.buffer.length) ∧
    (∀ img cx cy rx ry color th f, (drawEllipse img cx cy rx ry color th f).width = img.width ∧
      (drawEllipse img cx cy rx ry color th f).height = img.height ∧
      (drawEllipse img cx cy rx ry color th f).buffer.length = img.buffer.length) ∧
    (∀ img pts color th f, (drawPolygon img pts color th f).width = img.width ∧
      (drawPolygon img pts color th f).height = img.height ∧
      (drawPolygon img pts color th f).buffer.length = img.buffer.length) ∧
    (∀ img x1 y1 x2 y2 color th asz, (drawArrow img x1 y1 x2 y2 color th asz).width = img.width ∧
      (drawArrow img x1 y1 x2 y2 color th asz).height = img.height ∧
      (drawArrow img x1 y1 x2 y2 color th asz).buffer.length = img.buffer.length) ∧
    (∀ img cx cy sz color th, (drawCross img cx cy sz color th).width = img.width ∧
      (drawCross img cx cy sz color th).height = img.height ∧
      (drawCross img cx cy sz color th).buffer.length = img.buffer.length) ∧
    (∀ img cx cy r sa ea color th, (drawArc img cx cy r sa ea color th).width = img.width ∧
      (drawArc img cx cy r sa ea color th).height = img.height ∧
      (drawArc img cx cy r sa ea color th).buffer.length = img.buffer.length) ∧
    (∀ img x y s color sz, (drawText img x y s color sz).width = img.width ∧
      (drawText img x y s color sz).height = img.height ∧
      (drawText img x y s color sz).buffer.length = img.buffer.length) := by
  refine ⟨?_, ?_, ?_, ?_, ?_, ?_, ?_, ?_, ?_, ?_, ?_⟩
  · intro img x y w h color th
    exact ⟨applyWrites_width _ _ _, applyWrites_height _ _ _, applyWrites_length _ _ _⟩
  · intro img cx cy r color th
    exact ⟨applyWrites_width _ _ _, applyWrites_height _ _ _, applyWrites_length _ _ _⟩
  · intro img x1 y1 x2 y2 color th
    exact ⟨applyWrites_width _ _ _, applyWrites_height _ _ _, applyWrites_length _ _ _⟩
  · intro img x y w h color
    exact ⟨applyWrites_width _ _ _, applyWrites_height _ _ _, applyWrites_length _ _ _⟩
  · intro img cx cy r color
    exact ⟨applyWrites_width _ _ _, applyWrites_height _ _ _, applyWrites_length _ _ _⟩
  · intro img cx cy rx ry color th f
    unfold drawEllipse
    split
    · exact ⟨applyWrites_width _ _ _, applyWrites_height _ _ _, applyWrites_length _ _ _⟩
    · exact ⟨applyWrites_width _ _ _, applyWrites_height _ _ _, applyWrites_length _ _ _⟩
  · intro img pts color th f
    unfold drawPolygon
    split
    · exact ⟨rfl, rfl, rfl⟩
    · split
      · split
        · exact ⟨rfl, rfl, rfl⟩
        · exact ⟨applyWrites_width _ _ _, applyWrites_height _ _ _, applyWrites_length _ _ _⟩
      · exact ⟨applyWrites_width _ _ _, applyWrites_height _ _ _, applyWrites_length _ _ _⟩
  · intro img x1 y1 x2 y2 color th asz
    exact ⟨applyWrites_width _ _ _, applyWrites_height _ _ _, applyWrites_length _ _ _⟩
  · intro img cx cy sz color th
    exact ⟨applyWrites_width _ _ _, applyWrites_height _ _ _, applyWrites_length _ _ _⟩
  · intro img cx cy r sa ea color th
    exact ⟨applyWrites_width _ _ _, applyWrites_height _ _ _, applyWrites_length _ _ _⟩
  · intro img x y s color sz
    exact ⟨applyWrites_width _ _ _, applyWrites_height _ _ _, applyWrites_length _ _ _⟩
